import Mathlib

/-!
Verification of the question-generation core of the instructor assistant
repository against its natural-language specification.

The Python sources are shallowly embedded as executable Lean definitions:

* `webapp/backend/services.py` — quota derivation (`_derive_type_counts`),
  prompt composition (`_build_messages`), response normalization
  (`_parse_questions`), upload context capping;
* `server/tools/canvas_export.py` — the markdown renderer
  (`render_canvas_markdown` and its helpers);
* `server/question_sets.py` — question-set creation/update and
  `_normalize_question`;
* the insertion preview (`generate_insertion_preview`), which is imported
  by `webapp/backend/main.py` but absent from the sources, is modelled
  from the specification (section 4.4).

Python strings are modelled as Lean `String` (a wrapped `List Char`);
machine integers do not occur on the verified paths, so counts are `Nat`.
The embedding targets the ASCII fragment of Python's `str` methods, which
covers every string these claims touch.
-/

/-- Whitespace set used by Python's `str.strip` / `str.split` / regex `\s`
(ASCII fragment). -/
def isPySpace (c : Char) : Bool :=
  c = ' ' || c = '\t' || c = '\n' || c = '\r' || c = '\x0b' || c = '\x0c'

/-- Left strip at the character-list level. -/
def stripLeftL (l : List Char) : List Char := l.dropWhile isPySpace

/-- Right strip at the character-list level. -/
def stripRightL (l : List Char) : List Char := (l.reverse.dropWhile isPySpace).reverse

/-- Python `str.strip()` at the character-list level. -/
def pyStripL (l : List Char) : List Char := stripRightL (stripLeftL l)

/-- Python `str.strip()`. -/
def pyStrip (s : String) : String := String.mk (pyStripL s.data)

/-- Python `str.lower()` (ASCII fragment). -/
def pyLower (s : String) : String := String.mk (s.data.map Char.toLower)

/-- Python `str.upper()` (ASCII fragment). -/
def pyUpper (s : String) : String := String.mk (s.data.map Char.toUpper)

/-- Helper for `pyWordsL`: groups a character list into maximal runs
separated by whitespace; runs may be empty and are filtered afterwards. -/
def wordsAux : List Char → List (List Char)
  | [] => [[]]
  | c :: cs =>
    let r := wordsAux cs
    if isPySpace c then [] :: r
    else
      match r with
      | [] => [[c]]
      | w :: rest => (c :: w) :: rest

/-- Python `str.split()` (no argument): whitespace-delimited tokens,
empty tokens discarded. -/
def pyWordsL (l : List Char) : List (List Char) :=
  (wordsAux l).filter (fun w => ¬ w.isEmpty)

/-- Single-space interleaving of token lists, as `" ".join(...)`. -/
def joinSpaceL : List (List Char) → List Char
  | [] => []
  | [w] => w
  | w :: rest => w ++ ' ' :: joinSpaceL rest

/-- Embedding of `_clean` in `server/tools/canvas_export.py`:
`" ".join(str(s).split()).strip()`. -/
def cleanText (s : String) : String := String.mk (pyStripL (joinSpaceL (pyWordsL s.data)))

/-- Embedding of `_canon` in `server/tools/canvas_export.py`:
`_clean(s).lower()`. -/
def canon (s : String) : String := pyLower (cleanText s)

/-- Numeric value of one ASCII digit character. -/
def digitVal (c : Char) : Nat := c.toNat - 48

/-- Python `int(...)` on a string of ASCII digits (the regex group `(\d+)`). -/
def valDigits (l : List Char) : Nat := l.foldl (fun a c => 10 * a + digitVal c) 0

/-- The four question kinds recognised by `TYPE_PATTERNS` in
`webapp/backend/services.py`. -/
inductive QKind where
  | mcq
  | short_answer
  | true_false
  | essay
deriving DecidableEq

/-- Literal matcher: consumes the word `w` from the front of `l`, returning
the remainder on success (regex literal text). -/
def lit : List Char → List Char → Option (List Char)
  | [], l => some l
  | _ :: _, [] => none
  | w :: ws, c :: cs => if w = c then lit ws cs else none

/-- Greedy `\s*`. -/
def dropSpaces (l : List Char) : List Char := l.dropWhile isPySpace

/-- Greedy `\s+`: at least one whitespace character, then maximal munch.
Maximal munch is faithful here because every continuation in
`TYPE_PATTERNS` starts with a non-whitespace character. -/
def ws1 : List Char → Option (List Char)
  | [] => none
  | c :: cs => if isPySpace c then some (dropSpaces cs) else none

/-- Greedy trailing optional single character (regex `s?` and the like at
the end of an alternative, where no backtracking can be observed). -/
def optChar (p : Char → Bool) : List Char → List Char
  | [] => []
  | c :: cs => if p c then cs else c :: cs

/-- The trailing optional group `(?:\s+questions?)?` shared by several of
the `TYPE_PATTERNS` alternations: matched greedily in full or not at all. -/
def questionsSuffix (l : List Char) : List Char :=
  match ws1 l with
  | none => l
  | some r =>
    match lit ("question".data) r with
    | none => l
    | some r2 => optChar (fun c => c = 's') r2

/-- Tail of the `short_answer` pattern after `short[-\s]?`: the literal
`answer` plus the optional questions suffix. -/
def shortTail (l : List Char) : Option (List Char) :=
  (lit ("answer".data) l).map questionsSuffix

/-- Tail of the `true_false` long alternative after `true\s*(?:or|/)?`:
`\s*false(?:\s+questions?)?`. -/
def tfTail (l : List Char) : Option (List Char) :=
  (lit ("false".data) (dropSpaces l)).map questionsSuffix

/-- Embedding of the `TYPE_PATTERNS` regexes of
`webapp/backend/services.py` (applied after `(\d+)\s*`), including the
alternation order and the backtracking of the optional elements:
mcq: `mcqs?|multiple\s+choice(?:\s+questions?)?`;
short_answer: `short[-\s]?answer(?:\s+questions?)?`;
true_false: `true\s*(?:or|/)?\s*false(?:\s+questions?)?|tf`;
essay: `essay(?:\s+questions?)?`. -/
def kindPat : QKind → List Char → Option (List Char)
  | .mcq, l =>
    ((lit ("mcq".data) l).map (optChar (fun c => c = 's'))) <|>
      (((lit ("multiple".data) l).bind ws1).bind
        (fun r => (lit ("choice".data) r).map questionsSuffix))
  | .short_answer, l =>
    (lit ("short".data) l).bind (fun r =>
      (match r with
       | c :: cs => if c = '-' || isPySpace c then shortTail cs else none
       | [] => none) <|> shortTail r)
  | .true_false, l =>
    ((lit ("true".data) l).bind (fun r =>
      let r1 := dropSpaces r
      ((lit ("or".data) r1).bind tfTail) <|>
        ((lit ("/".data) r1).bind tfTail) <|> tfTail r1)) <|>
      lit ("tf".data) l
  | .essay, l => (lit ("essay".data) l).map questionsSuffix

/-- One attempt of the compiled regex `(\d+)\s*(?:<pattern>)` at the head
of `l`: a maximal nonempty digit run, optional whitespace, then the kind
pattern. Returns the captured quantity and the remainder after the match. -/
def tryMatch (k : QKind) (l : List Char) : Option (Nat × List Char) :=
  let ds := l.takeWhile Char.isDigit
  let rest := l.dropWhile Char.isDigit
  if ds.isEmpty then none
  else
    match kindPat k (dropSpaces rest) with
    | some r => some (valDigits ds, r)
    | none => none

/-- Fuelled scanner implementing `re.finditer` over the instruction text
for one kind: left-to-right, non-overlapping; returns `none` when no
match occurred, otherwise the sum of all captured quantities (the loop
`counts[kind] = counts.get(kind, 0) + qty` of `_derive_type_counts`). -/
def scanKindF (k : QKind) : Nat → List Char → Option Nat
  | 0, _ => none
  | _ + 1, [] => none
  | fuel + 1, c :: cs =>
    match tryMatch k (c :: cs) with
    | some (v, r) => some (v + (scanKindF k fuel r).getD 0)
    | none => scanKindF k fuel cs

/-- Scanner with sufficient fuel. -/
def scanKind (k : QKind) (l : List Char) : Option Nat := scanKindF k l.length l

/-- One attempt of the fallback regex `(\d+)\s+(?:questions|items)` at the
head of `l`. -/
def tryGeneral (l : List Char) : Option Nat :=
  let ds := l.takeWhile Char.isDigit
  let rest := l.dropWhile Char.isDigit
  if ds.isEmpty then none
  else
    match ws1 rest with
    | some r =>
      if (lit ("questions".data) r).isSome || (lit ("items".data) r).isSome then
        some (valDigits ds)
      else none
    | none => none

/-- Fuelled `re.search` for the fallback total pattern: first match wins. -/
def searchGeneralF : Nat → List Char → Option Nat
  | 0, _ => none
  | _ + 1, [] => none
  | fuel + 1, c :: cs =>
    match tryGeneral (c :: cs) with
    | some v => some v
    | none => searchGeneralF fuel cs

/-- Fallback search with sufficient fuel. -/
def searchGeneral (l : List Char) : Option Nat := searchGeneralF l.length l

/-- Embedding of `_derive_type_counts` in `webapp/backend/services.py`:
lowercase the instructions, scan each kind pattern independently, keep the
matched kinds (in the fixed `TYPE_PATTERNS` insertion order), and compute
the total as the sum of matched counts, falling back to the bare
`(\d+)\s+(?:questions|items)` search when no kind matched. -/
def derive_type_counts (instructions : String) : List (String × Nat) × Option Nat :=
  let l := (pyLower instructions).data
  let scans : List (String × Option Nat) :=
    [("mcq", scanKind .mcq l), ("short_answer", scanKind .short_answer l),
     ("true_false", scanKind .true_false l), ("essay", scanKind .essay l)]
  let counts := scans.filterMap (fun p => p.2.map (fun v => (p.1, v)))
  let total :=
    if counts.isEmpty then searchGeneral l
    else some ((counts.map (fun p => p.2)).sum)
  (counts, total)

/-- A list whose head, if any, is not an ASCII digit. -/
def headNotDigit (l : List Char) : Prop :=
  ∀ c, l.head? = some c → Char.isDigit c = false

theorem lit_append (w r : List Char) : lit w (w ++ r) = some r := by
  induction w with
  | nil => rfl
  | cons a w ih => simp [lit, ih]

theorem lit_length {w l r : List Char} (h : lit w l = some r) : r.length ≤ l.length := by
  induction w generalizing l with
  | nil =>
    simp [lit] at h
    exact h ▸ Nat.le_refl _
  | cons a w ih =>
    cases l with
    | nil => simp [lit] at h
    | cons c cs =>
      by_cases hac : a = c
      · simp [lit, hac] at h
        exact Nat.le_trans (ih h) (Nat.le_succ _)
      · simp [lit, hac] at h

theorem length_dropWhile_le (p : Char → Bool) (l : List Char) :
    (l.dropWhile p).length ≤ l.length := by
  induction l with
  | nil => exact Nat.le_refl _
  | cons c cs ih =>
    rw [List.dropWhile_cons]
    by_cases h : p c = true
    · simp only [h, if_true]
      exact Nat.le_trans ih (Nat.le_succ _)
    · simp only [h, if_false]
      exact Nat.le_refl _

theorem dropSpaces_length (l : List Char) : (dropSpaces l).length ≤ l.length :=
  length_dropWhile_le _ l

theorem ws1_length {l r : List Char} (h : ws1 l = some r) : r.length ≤ l.length := by
  cases l with
  | nil => simp [ws1] at h
  | cons c cs =>
    by_cases hc : isPySpace c = true
    · simp [ws1, hc] at h
      exact h ▸ Nat.le_trans (dropSpaces_length cs) (Nat.le_succ _)
    · simp [ws1, hc] at h

theorem optChar_length (p : Char → Bool) (l : List Char) : (optChar p l).length ≤ l.length := by
  cases l with
  | nil => exact Nat.le_refl _
  | cons c cs =>
    by_cases h : p c = true
    · simp [optChar, h]
    · simp [optChar, h]

theorem questionsSuffix_length (l : List Char) : (questionsSuffix l).length ≤ l.length := by
  unfold questionsSuffix
  cases hw : ws1 l with
  | none => exact Nat.le_refl _
  | some r =>
    dsimp only
    cases hl : lit ("question".data) r with
    | none => exact Nat.le_refl _
    | some r2 =>
      dsimp only
      exact Nat.le_trans (optChar_length _ r2) (Nat.le_trans (lit_length hl) (ws1_length hw))

theorem shortTail_length {l r : List Char} (h : shortTail l = some r) : r.length ≤ l.length := by
  unfold shortTail at h
  cases hl : lit ("answer".data) l with
  | none => rw [hl] at h; simp at h
  | some r2 =>
    rw [hl] at h
    simp at h
    exact h ▸ Nat.le_trans (questionsSuffix_length r2) (lit_length hl)

theorem tfTail_length {l r : List Char} (h : tfTail l = some r) : r.length ≤ l.length := by
  unfold tfTail at h
  cases hl : lit ("false".data) (dropSpaces l) with
  | none => rw [hl] at h; simp at h
  | some r2 =>
    rw [hl] at h
    simp at h
    exact h ▸ Nat.le_trans (questionsSuffix_length r2)
      (Nat.le_trans (lit_length hl) (dropSpaces_length l))

theorem orElse_some {α : Type} {a b : Option α} {x : α} (h : (a <|> b) = some x) :
    a = some x ∨ (a = none ∧ b = some x) := by
  cases a with
  | none => right; exact ⟨rfl, by simpa using h⟩
  | some y => left; simpa using h

theorem kindPat_length {k : QKind} {l r : List Char} (h : kindPat k l = some r) :
    r.length ≤ l.length := by
  cases k with
  | mcq =>
    rcases orElse_some h with h1 | ⟨_, h2⟩
    · rcases Option.map_eq_some'.mp h1 with ⟨r1, hl1, hr⟩
      exact hr ▸ Nat.le_trans (optChar_length _ r1) (lit_length hl1)
    · rcases Option.bind_eq_some.mp h2 with ⟨r1, hb, hm⟩
      rcases Option.bind_eq_some.mp hb with ⟨r2, hl2, hw⟩
      rcases Option.map_eq_some'.mp hm with ⟨r3, hl3, hr⟩
      exact hr ▸ Nat.le_trans (questionsSuffix_length r3)
        (Nat.le_trans (lit_length hl3) (Nat.le_trans (ws1_length hw) (lit_length hl2)))
  | short_answer =>
    unfold kindPat at h
    rcases Option.bind_eq_some.mp h with ⟨r1, hl1, hb⟩
    rcases orElse_some hb with h1 | ⟨_, h2⟩
    · cases r1 with
      | nil => simp at h1
      | cons c cs =>
        dsimp only at h1
        split at h1
        · exact Nat.le_trans (shortTail_length h1)
            (Nat.le_trans (Nat.le_succ _) (lit_length hl1))
        · simp at h1
    · exact Nat.le_trans (shortTail_length h2) (lit_length hl1)
  | true_false =>
    rcases orElse_some h with h1 | ⟨_, h2⟩
    · rcases Option.bind_eq_some.mp h1 with ⟨r1, hl1, hb⟩
      have hdrop : (dropSpaces r1).length ≤ l.length :=
        Nat.le_trans (dropSpaces_length r1) (lit_length hl1)
      rcases orElse_some hb with h3 | ⟨_, h4⟩
      · rcases Option.bind_eq_some.mp h3 with ⟨r2, hor, htf⟩
        exact Nat.le_trans (tfTail_length htf) (Nat.le_trans (lit_length hor) hdrop)
      · rcases orElse_some h4 with h5 | ⟨_, h6⟩
        · rcases Option.bind_eq_some.mp h5 with ⟨r2, hsl, htf⟩
          exact Nat.le_trans (tfTail_length htf) (Nat.le_trans (lit_length hsl) hdrop)
        · exact Nat.le_trans (tfTail_length h6) hdrop
    · exact lit_length h2
  | essay =>
    rcases Option.map_eq_some'.mp h with ⟨r1, hl1, hr⟩
    exact hr ▸ Nat.le_trans (questionsSuffix_length r1) (lit_length hl1)

theorem tryMatch_length {k : QKind} {l r : List Char} {v : Nat}
    (h : tryMatch k l = some (v, r)) : r.length < l.length := by
  unfold tryMatch at h
  by_cases he : (l.takeWhile Char.isDigit).isEmpty = true
  · simp [he] at h
  · rw [if_neg he] at h
    cases hp : kindPat k (dropSpaces (l.dropWhile Char.isDigit)) with
    | none => rw [hp] at h; simp at h
    | some r2 =>
      rw [hp] at h
      simp at h
      have hlen : l.length = (l.takeWhile Char.isDigit).length + (l.dropWhile Char.isDigit).length := by
        conv_lhs => rw [← List.takeWhile_append_dropWhile (p := Char.isDigit) (l := l)]
        exact List.length_append _ _
      have htw : 0 < (l.takeWhile Char.isDigit).length := by
        cases hq : l.takeWhile Char.isDigit with
        | nil => rw [hq] at he; simp at he
        | cons a b => simp [hq]
      have h2 : r2.length ≤ (l.dropWhile Char.isDigit).length :=
        Nat.le_trans (kindPat_length hp) (dropSpaces_length _)
      obtain ⟨-, hr⟩ := h
      subst hr
      omega

theorem scanKindF_congr (k : QKind) :
    ∀ f₁ f₂ (l : List Char), l.length ≤ f₁ → l.length ≤ f₂ →
      scanKindF k f₁ l = scanKindF k f₂ l := by
  intro f₁
  induction f₁ with
  | zero =>
    intro f₂ l h1 _
    have : l = [] := List.eq_nil_of_length_eq_zero (Nat.le_zero.mp h1)
    subst this
    cases f₂ with
    | zero => rfl
    | succ g => rfl
  | succ f ih =>
    intro f₂ l h1 h2
    cases l with
    | nil =>
      cases f₂ with
      | zero => rfl
      | succ g => rfl
    | cons c cs =>
      cases f₂ with
      | zero => simp at h2
      | succ g =>
        cases hm : tryMatch k (c :: cs) with
        | none =>
          have hcs : cs.length ≤ f := by simp at h1; omega
          have hcs2 : cs.length ≤ g := by simp at h2; omega
          simp only [scanKindF, hm]
          exact ih g cs hcs hcs2
        | some vr =>
          obtain ⟨v, r⟩ := vr
          have hr := tryMatch_length hm
          have hrf : r.length ≤ f := by simp at h1 hr; omega
          have hrg : r.length ≤ g := by simp at h2 hr; omega
          simp only [scanKindF, hm]
          rw [ih g r hrf hrg]

theorem scanKind_cons_none {k : QKind} {c : Char} {cs : List Char}
    (h : tryMatch k (c :: cs) = none) : scanKind k (c :: cs) = scanKind k cs := by
  unfold scanKind
  simp only [List.length_cons, scanKindF, h]

theorem scanKind_cons_some {k : QKind} {c : Char} {cs : List Char} {v : Nat} {r : List Char}
    (h : tryMatch k (c :: cs) = some (v, r)) :
    scanKind k (c :: cs) = some (v + (scanKind k r).getD 0) := by
  unfold scanKind
  simp only [List.length_cons, scanKindF, h]
  have hr := tryMatch_length h
  rw [scanKindF_congr k cs.length r.length r (by simp at hr; omega) (Nat.le_refl _)]

theorem span_digits_append {ds T : List Char} (hds : ∀ c ∈ ds, Char.isDigit c = true)
    (hT : headNotDigit T) :
    (ds ++ T).takeWhile Char.isDigit = ds ∧ (ds ++ T).dropWhile Char.isDigit = T := by
  induction ds with
  | nil =>
    simp only [List.nil_append]
    cases T with
    | nil => simp
    | cons h t =>
      have := hT h rfl
      simp [List.takeWhile_cons, List.dropWhile_cons, this]
  | cons d ds ih =>
    have hd := hds d (by simp)
    have hrest := ih (fun c hc => hds c (by simp [hc]))
    simp [List.takeWhile_cons, List.dropWhile_cons, hd, hrest.1, hrest.2]

theorem tryMatch_nodigit (k : QKind) {c : Char} (cs : List Char)
    (h : Char.isDigit c = false) : tryMatch k (c :: cs) = none := by
  simp [tryMatch, List.takeWhile_cons, h]

theorem tryMatch_digits (k : QKind) {ds T : List Char} (hne : ds ≠ [])
    (hds : ∀ c ∈ ds, Char.isDigit c = true) (hT : headNotDigit T) :
    tryMatch k (ds ++ T) =
      match kindPat k (dropSpaces T) with
      | some r => some (valDigits ds, r)
      | none => none := by
  obtain ⟨h1, h2⟩ := span_digits_append hds hT
  unfold tryMatch
  rw [h1, h2]
  simp [List.isEmpty_iff, hne]

theorem scanKind_nodigit_append (k : QKind) {P : List Char} (l : List Char)
    (hP : ∀ c ∈ P, Char.isDigit c = false) :
    scanKind k (P ++ l) = scanKind k l := by
  induction P with
  | nil => simp
  | cons c P ih =>
    rw [List.cons_append,
      scanKind_cons_none (tryMatch_nodigit k (P ++ l) (hP c (by simp))),
      ih (fun x hx => hP x (by simp [hx]))]

theorem scanKind_digits_fail (k : QKind) {ds T : List Char}
    (hds : ∀ c ∈ ds, Char.isDigit c = true) (hT : headNotDigit T)
    (hpat : kindPat k (dropSpaces T) = none) :
    scanKind k (ds ++ T) = scanKind k T := by
  induction ds with
  | nil => simp
  | cons d ds ih =>
    have ht : tryMatch k (d :: (ds ++ T)) = none := by
      have := tryMatch_digits k (List.cons_ne_nil d ds) hds hT
      rw [List.cons_append] at this
      rw [this, hpat]
    rw [List.cons_append, scanKind_cons_none ht, ih (fun c hc => hds c (by simp [hc]))]

theorem scanKind_digits_match (k : QKind) {ds T R : List Char} (hne : ds ≠ [])
    (hds : ∀ c ∈ ds, Char.isDigit c = true) (hT : headNotDigit T)
    (hpat : kindPat k (dropSpaces T) = some R) :
    scanKind k (ds ++ T) = some (valDigits ds + (scanKind k R).getD 0) := by
  cases ds with
  | nil => exact absurd rfl hne
  | cons d ds =>
    have ht : tryMatch k (d :: (ds ++ T)) = some (valDigits (d :: ds), R) := by
      have := tryMatch_digits k (List.cons_ne_nil d ds) hds hT
      rw [List.cons_append] at this
      rw [this, hpat]
    rw [List.cons_append, scanKind_cons_some ht]

/-- ASCII digit character of a value below ten. -/
def digitChar : Nat → Char
  | 0 => '0'
  | 1 => '1'
  | 2 => '2'
  | 3 => '3'
  | 4 => '4'
  | 5 => '5'
  | 6 => '6'
  | 7 => '7'
  | 8 => '8'
  | 9 => '9'
  | _ + 10 => '0'

theorem isDigit_digitChar (d : Nat) : Char.isDigit (digitChar d) = true := by
  match d with
  | 0 | 1 | 2 | 3 | 4 | 5 | 6 | 7 | 8 | 9 => decide
  | n + 10 => exact (by decide : Char.isDigit '0' = true)

theorem toLower_digitChar (d : Nat) : Char.toLower (digitChar d) = digitChar d := by
  match d with
  | 0 | 1 | 2 | 3 | 4 | 5 | 6 | 7 | 8 | 9 => decide
  | n + 10 => exact (by decide : Char.toLower '0' = '0')

theorem digitVal_digitChar {d : Nat} (h : d < 10) : digitVal (digitChar d) = d := by
  match d with
  | 0 | 1 | 2 | 3 | 4 | 5 | 6 | 7 | 8 | 9 => decide
  | n + 10 => omega

/-- Decimal digit string of a natural number, most significant digit
first, as produced by Python string formatting of a nonnegative int. -/
def natDigits (n : Nat) : List Char :=
  if n < 10 then [digitChar n]
  else natDigits (n / 10) ++ [digitChar (n % 10)]
termination_by n
decreasing_by exact Nat.div_lt_self (by omega) (by omega)

theorem natDigits_all_digit (n : Nat) : ∀ c ∈ natDigits n, Char.isDigit c = true := by
  induction n using Nat.strong_induction_on with
  | _ n ih =>
    unfold natDigits
    split
    · intro c hc
      simp at hc
      subst hc
      exact isDigit_digitChar n
    · intro c hc
      rw [List.mem_append] at hc
      rcases hc with hc | hc
      · exact ih (n / 10) (Nat.div_lt_self (by omega) (by omega)) c hc
      · simp at hc
        subst hc
        exact isDigit_digitChar (n % 10)

theorem natDigits_ne_nil (n : Nat) : natDigits n ≠ [] := by
  unfold natDigits
  split
  · simp
  · simp

theorem natDigits_toLower (n : Nat) : ∀ c ∈ natDigits n, Char.toLower c = c := by
  induction n using Nat.strong_induction_on with
  | _ n ih =>
    unfold natDigits
    split
    · intro c hc
      simp at hc
      subst hc
      exact toLower_digitChar n
    · intro c hc
      rw [List.mem_append] at hc
      rcases hc with hc | hc
      · exact ih (n / 10) (Nat.div_lt_self (by omega) (by omega)) c hc
      · simp at hc
        subst hc
        exact toLower_digitChar (n % 10)

theorem map_id_of_mem {l : List Char} {f : Char → Char} (h : ∀ c ∈ l, f c = c) :
    l.map f = l := by
  induction l with
  | nil => rfl
  | cons c cs ih =>
    rw [List.map_cons, h c (by simp), ih (fun x hx => h x (by simp [hx]))]

theorem valDigits_natDigits (n : Nat) : valDigits (natDigits n) = n := by
  induction n using Nat.strong_induction_on with
  | _ n ih =>
    unfold natDigits
    split
    · next h =>
      show valDigits [digitChar n] = n
      unfold valDigits
      simp [digitVal_digitChar h]
    · next h =>
      have h1 : valDigits (natDigits (n / 10) ++ [digitChar (n % 10)]) =
          10 * valDigits (natDigits (n / 10)) + digitVal (digitChar (n % 10)) := by
        unfold valDigits
        rw [List.foldl_append]
        rfl
      rw [h1, ih (n / 10) (Nat.div_lt_self (by omega) (by omega)),
        digitVal_digitChar (Nat.mod_lt _ (by omega))]
      omega

theorem headNotDigit_of_head {l : List Char} {a : Char} (h : l.head? = some a)
    (ha : Char.isDigit a = false) : headNotDigit l := by
  intro c hc
  rw [h] at hc
  injection hc with h2
  subst h2
  exact ha

/-- The instruction family of the claim: `"<n> mcq and <m> short answer"`
with decimal numerals. -/
def mkInstr (n m : Nat) : String :=
  String.mk (natDigits n ++ (" mcq and ".data ++ (natDigits m ++ " short answer".data)))

theorem pyLower_mkInstr (n m : Nat) :
    (pyLower (mkInstr n m)).data =
      natDigits n ++ (" mcq and ".data ++ (natDigits m ++ " short answer".data)) := by
  show (natDigits n ++ (" mcq and ".data ++ (natDigits m ++ " short answer".data))).map
      Char.toLower = _
  rw [List.map_append, List.map_append, List.map_append,
    map_id_of_mem (natDigits_toLower n), map_id_of_mem (natDigits_toLower m),
    (by decide : (" mcq and ".data).map Char.toLower = " mcq and ".data),
    (by decide : (" short answer".data).map Char.toLower = " short answer".data)]

theorem scan_mcq_mkInstr (n m : Nat) :
    scanKind .mcq (natDigits n ++ (" mcq and ".data ++ (natDigits m ++ " short answer".data))) =
      some n := by
  have hT1 : headNotDigit (" mcq and ".data ++ (natDigits m ++ " short answer".data)) :=
    headNotDigit_of_head (a := ' ') rfl (by decide)
  have hp1 : kindPat .mcq (dropSpaces (" mcq and ".data ++ (natDigits m ++ " short answer".data))) =
      some (" and ".data ++ (natDigits m ++ " short answer".data)) := rfl
  rw [scanKind_digits_match .mcq (natDigits_ne_nil n) (natDigits_all_digit n) hT1 hp1]
  rw [scanKind_nodigit_append .mcq (natDigits m ++ " short answer".data)
    (by decide : ∀ c ∈ " and ".data, Char.isDigit c = false)]
  have hT2 : headNotDigit (" short answer".data) := headNotDigit_of_head (a := ' ') rfl (by decide)
  have hp2 : kindPat .mcq (dropSpaces (" short answer".data)) = none := rfl
  rw [scanKind_digits_fail .mcq (natDigits_all_digit m) hT2 hp2]
  rw [(by decide : scanKind .mcq (" short answer".data) = none)]
  rw [valDigits_natDigits]
  rfl

theorem scan_short_mkInstr (n m : Nat) :
    scanKind .short_answer
      (natDigits n ++ (" mcq and ".data ++ (natDigits m ++ " short answer".data))) =
      some m := by
  have hT1 : headNotDigit (" mcq and ".data ++ (natDigits m ++ " short answer".data)) :=
    headNotDigit_of_head (a := ' ') rfl (by decide)
  have hp1 : kindPat .short_answer
      (dropSpaces (" mcq and ".data ++ (natDigits m ++ " short answer".data))) = none := rfl
  rw [scanKind_digits_fail .short_answer (natDigits_all_digit n) hT1 hp1]
  rw [scanKind_nodigit_append .short_answer (natDigits m ++ " short answer".data)
    (by decide : ∀ c ∈ " mcq and ".data, Char.isDigit c = false)]
  have hT2 : headNotDigit (" short answer".data) := headNotDigit_of_head (a := ' ') rfl (by decide)
  have hp2 : kindPat .short_answer (dropSpaces (" short answer".data)) = some [] := rfl
  rw [scanKind_digits_match .short_answer (natDigits_ne_nil m) (natDigits_all_digit m) hT2 hp2]
  rw [valDigits_natDigits]
  rfl

theorem scan_tf_mkInstr (n m : Nat) :
    scanKind .true_false
      (natDigits n ++ (" mcq and ".data ++ (natDigits m ++ " short answer".data))) = none := by
  have hT1 : headNotDigit (" mcq and ".data ++ (natDigits m ++ " short answer".data)) :=
    headNotDigit_of_head (a := ' ') rfl (by decide)
  have hp1 : kindPat .true_false
      (dropSpaces (" mcq and ".data ++ (natDigits m ++ " short answer".data))) = none := rfl
  rw [scanKind_digits_fail .true_false (natDigits_all_digit n) hT1 hp1]
  rw [scanKind_nodigit_append .true_false (natDigits m ++ " short answer".data)
    (by decide : ∀ c ∈ " mcq and ".data, Char.isDigit c = false)]
  have hT2 : headNotDigit (" short answer".data) := headNotDigit_of_head (a := ' ') rfl (by decide)
  have hp2 : kindPat .true_false (dropSpaces (" short answer".data)) = none := rfl
  rw [scanKind_digits_fail .true_false (natDigits_all_digit m) hT2 hp2]
  decide

theorem scan_essay_mkInstr (n m : Nat) :
    scanKind .essay
      (natDigits n ++ (" mcq and ".data ++ (natDigits m ++ " short answer".data))) = none := by
  have hT1 : headNotDigit (" mcq and ".data ++ (natDigits m ++ " short answer".data)) :=
    headNotDigit_of_head (a := ' ') rfl (by decide)
  have hp1 : kindPat .essay
      (dropSpaces (" mcq and ".data ++ (natDigits m ++ " short answer".data))) = none := rfl
  rw [scanKind_digits_fail .essay (natDigits_all_digit n) hT1 hp1]
  rw [scanKind_nodigit_append .essay (natDigits m ++ " short answer".data)
    (by decide : ∀ c ∈ " mcq and ".data, Char.isDigit c = false)]
  have hT2 : headNotDigit (" short answer".data) := headNotDigit_of_head (a := ' ') rfl (by decide)
  have hp2 : kindPat .essay (dropSpaces (" short answer".data)) = none := rfl
  rw [scanKind_digits_fail .essay (natDigits_all_digit m) hT2 hp2]
  decide

/-- C4: for every instruction string of the form `"<n> mcq and <m> short answer"`
the quota deriver returns quotas `{mcq: n, short_answer: m}` (in the fixed
`TYPE_PATTERNS` insertion order) and total `n + m`; and repeated mentions of
one kind are summed, as witnessed on a concrete instruction repeating `mcq`. -/
theorem quota_deriver_mcq_short_answer :
    (∀ n m : Nat,
      derive_type_counts (mkInstr n m) = ([("mcq", n), ("short_answer", m)], some (n + m)))
    ∧ derive_type_counts "2 mcq then 3 mcq and 4 short answers" =
        ([("mcq", 5), ("short_answer", 4)], some 9) := by
  constructor
  · intro n m
    unfold derive_type_counts
    rw [pyLower_mkInstr]
    dsimp only
    rw [scan_mcq_mkInstr, scan_short_mkInstr, scan_tf_mkInstr, scan_essay_mkInstr]
    simp [List.filterMap]
  · decide

/-- JSON values as produced by `json.loads` (numbers restricted to the
integers, which suffices for every claim; Python floats do not occur on
the verified paths). -/
inductive JValue where
  | null
  | bool (b : Bool)
  | num (n : Int)
  | str (s : String)
  | arr (xs : List JValue)
  | obj (kvs : List (String × JValue))

/-- Python dict lookup with the last-wins duplicate-key behaviour of
`json.loads`; `none` models the Python `None` returned by `dict.get`. -/
def pyGet (kvs : List (String × JValue)) (k : String) : Option JValue :=
  kvs.foldl (fun acc p => if p.1 = k then some p.2 else acc) none

/-- `dict.get` with a missing key collapsed to JSON null, which is the
same Python object (`None`) either way. -/
def jGet (kvs : List (String × JValue)) (k : String) : JValue :=
  (pyGet kvs k).getD .null

/-- Python truthiness of a JSON value. -/
def pyTruthy : JValue → Bool
  | .null => false
  | .bool b => b
  | .num n => n != 0
  | .str s => !s.isEmpty
  | .arr xs => !xs.isEmpty
  | .obj kvs => !kvs.isEmpty

/-- Python `a or b` on JSON values. -/
def pyOrJ (a b : JValue) : JValue := if pyTruthy a then a else b

mutual
/-- Python `repr` of a JSON value (used by `str` on containers). String
quoting is simplified to single quotes without escape processing; the
claims never reach container reprs with quotes inside. -/
def pyRepr : JValue → String
  | .null => "None"
  | .bool true => "True"
  | .bool false => "False"
  | .num n => toString n
  | .str s => "'" ++ s ++ "'"
  | .arr xs => "[" ++ String.intercalate ", " (pyReprList xs) ++ "]"
  | .obj kvs => "\x7b" ++ String.intercalate ", " (pyReprObj kvs) ++ "\x7d"

def pyReprList : List JValue → List String
  | [] => []
  | v :: vs => pyRepr v :: pyReprList vs

def pyReprObj : List (String × JValue) → List String
  | [] => []
  | p :: ps => ("'" ++ p.1 ++ "': " ++ pyRepr p.2) :: pyReprObj ps
end

/-- Python `str` of a JSON value. -/
def pyStr : JValue → String
  | .null => "None"
  | .bool true => "True"
  | .bool false => "False"
  | .num n => toString n
  | .str s => s
  | .arr xs => pyRepr (.arr xs)
  | .obj kvs => pyRepr (.obj kvs)

/-- The canonical question record produced by `_parse_questions` in
`webapp/backend/services.py` (the pydantic `Question` model). -/
structure ParsedQuestion where
  kind : String
  text : String
  options : Option (List String)
  answer : Option String
  explanation : Option String
  reference : Option String
deriving DecidableEq

/-- Failure modes of `_parse_questions` past the JSON decoding step:
`questionGenerationError` is the `QuestionGenerationError` the function
raises itself; `attributeError` models the Python `AttributeError` from
calling `.strip()`/`.lower()` on a truthy non-string field value;
`validationError` models the pydantic `min_length=1` rejection of a
whitespace-only question text. -/
inductive PyFailure where
  | questionGenerationError (msg : String)
  | attributeError
  | validationError
deriving DecidableEq

/-- String content of a JSON value, or a Python `AttributeError`. -/
def asStr : JValue → Except PyFailure String
  | .str s => .ok s
  | _ => .error .attributeError

/-- Python `s.strip() or None` idiom. -/
def strOrNone (s : String) : Option String := if s.isEmpty then none else some s

/-- The `entry.get("text") or entry.get("question")` resolution. -/
def resolvedText (kvs : List (String × JValue)) : JValue :=
  pyOrJ (jGet kvs "text") (jGet kvs "question")

/-- The `options` normalization of `_parse_questions` (lines 203 to 207):
a JSON list becomes its entries stringified and stripped with empties
dropped; anything else becomes `None`. -/
def normalizeOptions (v : JValue) : Option (List String) :=
  match v with
  | .arr xs => some ((xs.map (fun o => pyStrip (pyStr o))).filter (fun s => !s.isEmpty))
  | _ => none

/-- The entry loop of `_parse_questions` (lines 196 to 216): non-mapping
entries are skipped, entries whose resolved text is falsy are skipped,
and the rest are normalized into `ParsedQuestion` records, evaluating
the constructor arguments in source order. -/
def normalize_entries : List JValue → Except PyFailure (List ParsedQuestion)
  | [] => .ok []
  | e :: rest =>
    match e with
    | .obj kvs =>
      let textV := resolvedText kvs
      if pyTruthy textV then do
        let options := normalizeOptions (jGet kvs "options")
        let kindS ← asStr (pyOrJ (pyOrJ (jGet kvs "kind") (jGet kvs "type")) (.str "short_answer"))
        let textS ← asStr textV
        let answerS ← asStr (pyOrJ (pyOrJ (jGet kvs "answer") (jGet kvs "solution")) (.str ""))
        let explS ← asStr
          (pyOrJ (pyOrJ (jGet kvs "explanation") (jGet kvs "rationale")) (.str ""))
        let refS ← asStr (pyOrJ (pyOrJ (jGet kvs "reference") (jGet kvs "source")) (.str ""))
        let textStripped := pyStrip textS
        if textStripped.isEmpty then .error .validationError
        else do
          let qs ← normalize_entries rest
          .ok ({ kind := pyLower kindS, text := textStripped, options := options,
                 answer := strOrNone (pyStrip answerS),
                 explanation := strOrNone (pyStrip explS),
                 reference := strOrNone (pyStrip refS) } :: qs)
      else normalize_entries rest
    | _ => normalize_entries rest

/-- Embedding of `_parse_questions` in `webapp/backend/services.py` from
the point where the response text has been decoded as JSON (the claims
about the normalizer all quantify over responses that parse): shape
check, entry normalization, and the empty-result check. -/
def parse_questions_json (payload : JValue) : Except PyFailure (List ParsedQuestion) :=
  let raw : JValue :=
    match payload with
    | .obj kvs => jGet kvs "questions"
    | _ => payload
  match raw with
  | .arr entries =>
    match normalize_entries entries with
    | .error e => .error e
    | .ok qs =>
      if qs.isEmpty then
        .error (.questionGenerationError "LLM response did not include any valid questions.")
      else .ok qs
  | _ => .error (.questionGenerationError "LLM response did not include a 'questions' list.")

/-- String content of a JSON value with empty default (total companion to
`asStr`, used on the specification side where tameness guarantees the
value is a string). -/
def strOf : JValue → String
  | .str s => s
  | _ => ""

/-- A field value that is either a string or falsy: exactly the values on
which the Python attribute accesses of `_parse_questions` cannot raise. -/
def strOrFalsy (v : JValue) : Bool :=
  match v with
  | .str _ => true
  | v => !pyTruthy v

/-- A response entry is tame when its textual fields hold strings (or
falsy values that the `or` chains fall through), and a truthy question
text does not strip to the empty string. Tameness excludes exactly the
Python dynamic-typing crash paths (`AttributeError` on a truthy
non-string, pydantic rejection of a whitespace-only text), which the
claim does not speak about. -/
def tameEntry : JValue → Bool
  | .obj kvs =>
    strOrFalsy (jGet kvs "text") && strOrFalsy (jGet kvs "question") &&
    strOrFalsy (jGet kvs "kind") && strOrFalsy (jGet kvs "type") &&
    strOrFalsy (jGet kvs "answer") && strOrFalsy (jGet kvs "solution") &&
    strOrFalsy (jGet kvs "explanation") && strOrFalsy (jGet kvs "rationale") &&
    strOrFalsy (jGet kvs "reference") && strOrFalsy (jGet kvs "source") &&
    (match resolvedText kvs with
     | .str s => s.isEmpty || !(pyStrip s).isEmpty
     | v => !pyTruthy v)
  | _ => true

/-- Specification-side reading of section 4.3 step 4: a mapping entry with
resolvable non-empty text yields a normalized record, anything else is
skipped (`none`). -/
def specNormalizeEntry : JValue → Option ParsedQuestion
  | .obj kvs =>
    match resolvedText kvs with
    | .str s =>
      if s.isEmpty then none
      else
        some { kind := pyLower (strOf (pyOrJ (pyOrJ (jGet kvs "kind") (jGet kvs "type"))
                 (.str "short_answer"))),
               text := pyStrip s,
               options := normalizeOptions (jGet kvs "options"),
               answer := strOrNone (pyStrip (strOf (pyOrJ (pyOrJ (jGet kvs "answer")
                 (jGet kvs "solution")) (.str "")))),
               explanation := strOrNone (pyStrip (strOf (pyOrJ (pyOrJ (jGet kvs "explanation")
                 (jGet kvs "rationale")) (.str "")))),
               reference := strOrNone (pyStrip (strOf (pyOrJ (pyOrJ (jGet kvs "reference")
                 (jGet kvs "source")) (.str "")))) }
    | _ => none
  | _ => none

theorem str_of_truthy {v : JValue} (h1 : strOrFalsy v = true) (h2 : pyTruthy v = true) :
    ∃ s, v = JValue.str s := by
  cases v with
  | str s => exact ⟨s, rfl⟩
  | null => simp [pyTruthy] at h2
  | bool b => simp [strOrFalsy, h2] at h1
  | num n => simp [strOrFalsy, h2] at h1
  | arr xs => simp [strOrFalsy, h2] at h1
  | obj kvs => simp [strOrFalsy, h2] at h1

theorem strOrFalsy_pyOrJ {a b : JValue} (ha : strOrFalsy a = true) (hb : strOrFalsy b = true) :
    strOrFalsy (pyOrJ a b) = true := by
  unfold pyOrJ
  split <;> assumption

theorem chain_str (a b : JValue) (d : String) (ha : strOrFalsy a = true)
    (hb : strOrFalsy b = true) :
    ∃ s, pyOrJ (pyOrJ a b) (JValue.str d) = JValue.str s := by
  by_cases h : pyTruthy (pyOrJ a b) = true
  · obtain ⟨s, hs⟩ := str_of_truthy (strOrFalsy_pyOrJ ha hb) h
    exact ⟨s, by rw [pyOrJ, if_pos h, hs]⟩
  · exact ⟨d, by rw [pyOrJ, if_neg h]⟩

theorem normalize_cons_obj_tame (kvs : List (String × JValue)) (rest : List JValue)
    (he : tameEntry (.obj kvs) = true) :
    normalize_entries (.obj kvs :: rest) =
      match specNormalizeEntry (.obj kvs) with
      | some q => (normalize_entries rest).map (fun qs => q :: qs)
      | none => normalize_entries rest := by
  simp only [tameEntry, Bool.and_eq_true, and_assoc] at he
  obtain ⟨h1, h2, h3, h4, h5, h6, h7, h8, h9, h10, h11⟩ := he
  by_cases htr : pyTruthy (resolvedText kvs) = true
  · have hres : strOrFalsy (resolvedText kvs) = true := by
      unfold resolvedText
      exact strOrFalsy_pyOrJ h1 h2
    obtain ⟨s, hs⟩ := str_of_truthy hres htr
    have hse : s.isEmpty = false := by
      rw [hs] at htr
      simpa [pyTruthy] using htr
    have hstrip : (pyStrip s).isEmpty = false := by
      rw [hs] at h11
      simpa [hse] using h11
    obtain ⟨s1, hs1⟩ := chain_str (jGet kvs "kind") (jGet kvs "type") "short_answer" h3 h4
    obtain ⟨s2, hs2⟩ := chain_str (jGet kvs "answer") (jGet kvs "solution") "" h5 h6
    obtain ⟨s3, hs3⟩ := chain_str (jGet kvs "explanation") (jGet kvs "rationale") "" h7 h8
    obtain ⟨s4, hs4⟩ := chain_str (jGet kvs "reference") (jGet kvs "source") "" h9 h10
    simp only [normalize_entries, specNormalizeEntry, hs, hs1, hs2, hs3, hs4, asStr, strOf,
      pyTruthy, hse, hstrip, Bool.not_false, if_true, Bool.false_eq_true, if_false, bind,
      Except.bind]
    cases hn : normalize_entries rest with
    | error e => simp [Except.map]
    | ok qs => simp [Except.map]
  · have hnone : specNormalizeEntry (.obj kvs) = none := by
      simp only [specNormalizeEntry]
      split
      · next s heq =>
        rw [heq] at htr
        simp [pyTruthy] at htr
        simp [htr]
      · rfl
    rw [hnone]
    simp only [normalize_entries, htr, if_false, Bool.false_eq_true]

theorem normalize_entries_tame :
    ∀ entries : List JValue, (∀ e ∈ entries, tameEntry e = true) →
      normalize_entries entries = .ok (entries.filterMap specNormalizeEntry) := by
  intro entries
  induction entries with
  | nil => intro _; rfl
  | cons e rest ih =>
    intro h
    have hr := ih (fun x hx => h x (by simp [hx]))
    cases e with
    | obj kvs =>
      rw [normalize_cons_obj_tame kvs rest (h _ (by simp))]
      rw [List.filterMap_cons]
      cases hq : specNormalizeEntry (.obj kvs) with
      | none => simpa [hq] using hr
      | some q => simp [hq, hr, Except.map]
    | null => simpa [normalize_entries, specNormalizeEntry, List.filterMap_cons] using hr
    | bool b => simpa [normalize_entries, specNormalizeEntry, List.filterMap_cons] using hr
    | num n => simpa [normalize_entries, specNormalizeEntry, List.filterMap_cons] using hr
    | str s => simpa [normalize_entries, specNormalizeEntry, List.filterMap_cons] using hr
    | arr xs => simpa [normalize_entries, specNormalizeEntry, List.filterMap_cons] using hr

/-- Supporting fact for the tame fragment: away from the crash inputs
below, the normalizer does recover locally — non-mapping entries and
entries with falsy text are skipped, and the empty-result failure is
raised exactly when zero valid questions remain. -/
theorem parse_tame_recovers_locally :
    ∀ entries : List JValue, (∀ e ∈ entries, tameEntry e = true) →
      parse_questions_json (.obj [("questions", .arr entries)]) =
        if (entries.filterMap specNormalizeEntry).isEmpty then
          .error (.questionGenerationError "LLM response did not include any valid questions.")
        else .ok (entries.filterMap specNormalizeEntry) := by
  intro entries h
  have hj : jGet [("questions", JValue.arr entries)] "questions" = JValue.arr entries := rfl
  simp only [parse_questions_json, hj, normalize_entries_tame entries h]

/-- C5: the claim fails on the code. A mapping entry with no resolvable
non-empty text is not always skipped without error: a truthy non-string
text (the number 5) raises an uncaught Python AttributeError at
`text.strip()` (`services.py` line 210) that fails the whole batch even
though a valid question follows it, and a whitespace-only text passes the
truthiness guard and then fails pydantic's `min_length=1` validation of
the `Question` model — in both runs the entry is neither skipped nor
recovered, and the fatal empty-result failure is never raised even when
zero valid questions remain. The theorem evaluates the embedded
`_parse_questions` at both failing inputs. -/
theorem entry_crash_fails_batch :
    parse_questions_json (.obj [("questions", .arr
        [.obj [("text", .num 5)], .obj [("text", .str "ok")]])]) =
      .error .attributeError
    ∧ parse_questions_json (.obj [("questions", .arr [.obj [("text", .str "   ")]])]) =
      .error .validationError := ⟨rfl, rfl⟩

/-- C1: a top-level backend refusal payload of the documented form is NOT
special-cased by `_parse_questions`: it falls through the questions-list
shape check and raises the generic missing-questions-list
`QuestionGenerationError`, discarding the refusal reason entirely, so no
failure distinct from the malformed-shape one and no carried reason
exist. (The claim is right about the intended contract — the prompt in
`_build_messages` line 164 instructs the backend to reply with exactly
this shape — and the code never handles it.) -/
theorem error_payload_not_special_cased :
    parse_questions_json
      (.obj [("error", .str "cannot produce 50 essay questions from 200 words of context")]) =
      .error (.questionGenerationError "LLM response did not include a 'questions' list.") := rfl

/-- Python truthiness of a string value. -/
def pyTruthyStr (s : String) : Bool := !s.data.isEmpty

/-- Request payload of the question generator (`QuestionGenerationRequest`
fields used by `_build_messages`). -/
structure GenPayload where
  instructions : String
  context : Option String
  question_count : Option Nat
  question_types : Option (List String)

/-- Python `a or b` where `a` is an optional integer (`payload.question_count
or derived_total`): `None` and `0` fall through. -/
def pyOrNat (a b : Option Nat) : Option Nat :=
  match a with
  | some n => if n != 0 then some n else b
  | none => b

/-- Python truthiness of an optional integer. -/
def optNatTruthy : Option Nat → Bool
  | none => false
  | some n => n != 0

/-- Python truthiness of an optional string list. -/
def optListTruthy : Option (List String) → Bool
  | none => false
  | some l => !l.isEmpty

/-- Python `kind.replace('_', ' ')`. -/
def replaceUnderscoreSpace (s : String) : String :=
  String.mk (s.data.map (fun c => if c = '_' then ' ' else c))

/-- The per-type summary string of `_build_messages` line 128. -/
def summaryOfCounts (counts : List (String × Nat)) : String :=
  String.intercalate ", " (counts.map (fun p => toString p.2 ++ " " ++ replaceUnderscoreSpace p.1))

/-- The derived-quota arm of the type instruction (lines 127 to 131). -/
def typeInstructionDerived (derived : List (String × Nat)) : String :=
  if !derived.isEmpty then
    "You must generate exactly these question counts/types: " ++ summaryOfCounts derived ++
      ". Use only the labels mcq, true_false, short_answer, or essay."
  else "Feel free to use MCQ, short_answer, true_false, or essay question types."

/-- The type instruction of `_build_messages` (lines 122 to 131). -/
def type_instruction (p : GenPayload) : String :=
  let derived := (derive_type_counts p.instructions).1
  if optListTruthy p.question_types then
    "The instructor prefers the following question types (use these labels when possible): " ++
      String.intercalate ", " ((p.question_types).getD []) ++ "."
  else typeInstructionDerived derived

/-- The count instruction of `_build_messages` (lines 133 to 138): the
default, overridden when a total is available, overridden again by the
derived total whenever derived per-type quotas with a truthy total exist. -/
def count_instruction (p : GenPayload) : String :=
  let dc := (derive_type_counts p.instructions).1
  let dt := (derive_type_counts p.instructions).2
  let totalQuestions := pyOrNat p.question_count dt
  let base :=
    match totalQuestions with
    | some t => "Generate exactly " ++ toString t ++ " questions."
    | none => "Generate only the requested questions."
  if !dc.isEmpty && optNatTruthy dt then
    "Generate exactly " ++ toString (dt.getD 0) ++
      " questions total, matching the per-type counts above."
  else base

/-- The context block of `_build_messages` line 140: the stripped context
appended after a header, with no truncation. -/
def context_block (p : GenPayload) : String :=
  match p.context with
  | some c => if pyTruthyStr c then "\nContext:\n" ++ pyStrip c else ""
  | none => ""

/-- The literal response-schema block of `_build_messages` (lines 142 to 156). -/
def schema_block : String :=
  "\nReturn JSON with this shape:\n\x7b\n  \"questions\": [\n    \x7b\n      \"kind\": \"mcq | short_answer | true_false | essay\",\n      \"text\": \"Question text\",\n      \"options\": [\"optional list of options\"],\n      \"answer\": \"short answer or letter\",\n      \"explanation\": \"why the answer is correct\",\n      \"reference\": \"source citation\"\n    \x7d\n  ]\n\x7d\n"

/-- The system prompt of `_build_messages` (lines 158 to 161). -/
def system_prompt : String :=
  "You are an experienced instructor who writes exam-ready questions. Only produce valid JSON. Avoid commentary outside JSON."

/-- The constraint note of `_build_messages` (lines 163 to 167). -/
def constraint_note (p : GenPayload) : String :=
  let derived := (derive_type_counts p.instructions).1
  let base := "If you cannot satisfy the requested counts/types, respond with a JSON error object like \x7b\"error\": \"reason\"\x7d instead of returning questions."
  if !derived.isEmpty then base ++ " Do not output question types that were not explicitly requested."
  else base

/-- The composed user prompt of `_build_messages` (lines 169 to 176). -/
def user_prompt (p : GenPayload) : String :=
  pyStrip p.instructions ++ "\n\n" ++ type_instruction p ++ "\n" ++ count_instruction p ++ "\n" ++
    schema_block ++ "\n" ++ context_block p ++ "\n" ++
    "Ensure answers reflect the context. " ++ constraint_note p

/-- Embedding of `_build_messages`: the ordered role-tagged messages. -/
def build_messages (p : GenPayload) : List (String × String) :=
  [("system", system_prompt), ("user", user_prompt p)]

/-- Embedding of `MAX_CONTEXT_CHARS` (`services.py` line 36): the default
of the `QUESTION_CONTEXT_CHAR_LIMIT` environment variable. -/
def MAX_CONTEXT_CHARS : Nat := 60000

/-- Embedding of the text handling of `extract_context_from_upload`
(`services.py` lines 300 to 304): strip, reject empty, cap at
`MAX_CONTEXT_CHARS` characters. -/
def cap_context (extracted : String) : Except String String :=
  let t := pyStrip extracted
  if !pyTruthyStr t then .error "Could not extract any text from the uploaded file."
  else .ok (if t.length > MAX_CONTEXT_CHARS then String.mk (t.data.take MAX_CONTEXT_CHARS) else t)

/-- The concrete request refuting C2: explicit `question_count = 10` with
instructions deriving a per-kind quota of 5 mcq. -/
def cexCountPayload : GenPayload :=
  { instructions := "Write 5 mcq questions about photosynthesis", context := none,
    question_count := some 10, question_types := none }

/-- C2 counterexample: with an explicit `question_count` of 10 and derived
quotas present, the composed count instruction uses the derived total 5,
not the explicit count — the derived total, not the explicit count, takes
precedence. -/
theorem explicit_count_overridden_cex :
    count_instruction cexCountPayload =
        "Generate exactly 5 questions total, matching the per-type counts above."
      ∧ count_instruction cexCountPayload ≠ "Generate exactly 10 questions." := by
  constructor
  · rfl
  · decide

/-- C2 amended: a caller-supplied nonzero `question_count` determines the
count instruction only when no per-kind quota with a truthy total was
derived from the instruction text; when derived quotas are present, the
derived total overrides the explicit count. -/
theorem count_instruction_precedence_amended :
    ∀ (p : GenPayload) (n : Nat), p.question_count = some n → n ≠ 0 →
      count_instruction p =
        if !(derive_type_counts p.instructions).1.isEmpty
            && optNatTruthy (derive_type_counts p.instructions).2 then
          "Generate exactly " ++ toString ((derive_type_counts p.instructions).2.getD 0) ++
            " questions total, matching the per-type counts above."
        else "Generate exactly " ++ toString n ++ " questions." := by
  intro p n h hn
  simp only [count_instruction, h]
  rw [(by simp [pyOrNat, hn] :
    pyOrNat (some n) (derive_type_counts p.instructions).2 = some n)]

/-- A request with an explicit count and no derivable quotas. -/
def plainCountPayload : GenPayload :=
  { instructions := "Write about history", context := none,
    question_count := some 7, question_types := none }

theorem count_instruction_precedence_amended_witness :
    count_instruction plainCountPayload = "Generate exactly 7 questions." := by
  rw [count_instruction_precedence_amended plainCountPayload 7 rfl (by decide)]
  decide

theorem dropWhile_eq_self_of_all {p : Char → Bool} {m : List Char}
    (hm : ∀ c ∈ m, p c = false) : m.dropWhile p = m := by
  cases m with
  | nil => rfl
  | cons c cs =>
    rw [List.dropWhile_cons, hm c (by simp)]
    simp

theorem pyStripL_all_nonspace {l : List Char} (h : ∀ c ∈ l, isPySpace c = false) :
    pyStripL l = l := by
  unfold pyStripL stripLeftL stripRightL
  rw [dropWhile_eq_self_of_all h,
    dropWhile_eq_self_of_all (fun c hc => h c (List.mem_reverse.mp hc)),
    List.reverse_reverse]

/-- A caller-supplied context one character over the configured budget. -/
def bigContext : String := String.mk (List.replicate 60001 'a')

/-- The generation request carrying the oversized context. -/
def bigContextPayload : GenPayload :=
  { instructions := "Write questions about the attached material", context := some bigContext,
    question_count := none, question_types := none }

/-- C3 counterexample: `_build_messages` performs no truncation — the
context block of the composed prompt contains the full 60001-character
context verbatim, exceeding the 60000-character `MAX_CONTEXT_CHARS`
budget the claim says is never exceeded. -/
theorem context_not_truncated_cex :
    context_block bigContextPayload = "\nContext:\n" ++ bigContext
      ∧ bigContext.length = 60001 ∧ MAX_CONTEXT_CHARS = 60000 := by
  have hrep : ∀ c ∈ List.replicate 60001 'a', isPySpace c = false := by
    intro c hc
    rw [List.eq_of_mem_replicate hc]
    decide
  have htr : pyTruthyStr bigContext = true := by
    show (!(List.replicate 60001 'a').isEmpty) = true
    rw [(by norm_num : (60001 : Nat) = 60000 + 1), List.replicate_succ]
    rfl
  refine ⟨?_, ?_, rfl⟩
  · show (if pyTruthyStr bigContext then "\nContext:\n" ++ pyStrip bigContext else "") = _
    rw [htr, if_pos rfl]
    unfold pyStrip bigContext
    rw [(rfl : (String.mk (List.replicate 60001 'a')).data = List.replicate 60001 'a')]
    rw [pyStripL_all_nonspace hrep]
  · show (List.replicate 60001 'a').length = 60001
    rw [List.length_replicate]

/-- C3 amended: the composed user prompt contains the context appended
verbatim (whitespace-stripped, in full) after the schema block;
`_build_messages` applies no truncation, and the `MAX_CONTEXT_CHARS`
budget is instead enforced upstream when context is extracted from an
uploaded file. -/
theorem context_appended_verbatim_amended :
    (∀ (p : GenPayload) (c : String), p.context = some c → pyTruthyStr c = true →
      user_prompt p =
        pyStrip p.instructions ++ "\n\n" ++ type_instruction p ++ "\n" ++ count_instruction p ++
          "\n" ++ schema_block ++ "\n" ++ ("\nContext:\n" ++ pyStrip c) ++ "\n" ++
          "Ensure answers reflect the context. " ++ constraint_note p)
    ∧ (∀ raw t : String, cap_context raw = .ok t → t.length ≤ MAX_CONTEXT_CHARS ∨
        t = pyStrip raw) := by
  constructor
  · intro p c hp ht
    unfold user_prompt context_block
    rw [hp]
    dsimp only
    rw [ht]
    simp
  · intro raw t h
    unfold cap_context at h
    dsimp only at h
    split at h
    · exact absurd h (by simp)
    · simp only [Except.ok.injEq] at h
      subst h
      split
      · left
        show (String.mk ((pyStrip raw).data.take MAX_CONTEXT_CHARS)).length ≤ MAX_CONTEXT_CHARS
        show ((pyStrip raw).data.take MAX_CONTEXT_CHARS).length ≤ MAX_CONTEXT_CHARS
        rw [List.length_take]
        exact Nat.min_le_left _ _
      · right
        rfl

/-- Payload used to instantiate the amended context theorem. -/
def smallContextPayload : GenPayload :=
  { instructions := "Make questions about water", context := some "  some context  ",
    question_count := none, question_types := none }

theorem context_appended_verbatim_amended_witness :
    user_prompt smallContextPayload =
      pyStrip smallContextPayload.instructions ++ "\n\n" ++
        type_instruction smallContextPayload ++ "\n" ++ count_instruction smallContextPayload ++
        "\n" ++ schema_block ++ "\n" ++ ("\nContext:\n" ++ pyStrip "  some context  ") ++ "\n" ++
        "Ensure answers reflect the context. " ++ constraint_note smallContextPayload :=
  context_appended_verbatim_amended.1 smallContextPayload "  some context  " rfl (by decide)

/-- A question record as consumed by the renderer in
`server/tools/canvas_export.py` (a dict read with `.get`). -/
structure Item where
  kind : Option String
  text : Option String
  options : Option (List String)
  answer : Option String
  explanation : Option String
  reference : Option String
deriving DecidableEq

/-- Python `it.get(key) or default` for string fields. -/
def pyOrS (v : Option String) (d : String) : String :=
  match v with
  | some s => if pyTruthyStr s then s else d
  | none => d

/-- The option-padding placeholder of `_ensure_four_options` line 137, the
three characters U+00E2 U+20AC U+201D exactly as they appear in the
source file. -/
def placeholderGlyph : String := "â€”"

/-- Embedding of `_ensure_four_options`: keep options whose raw text strips
non-empty, whitespace-collapse each, pad with the placeholder up to four,
truncate past four. -/
def ensure_four_options (options : Option (List String)) : List String :=
  let opts := ((options.getD []).filter (fun o => pyTruthyStr (pyStrip o))).map cleanText
  let padded := opts ++ List.replicate (4 - opts.length) placeholderGlyph
  if padded.length > 4 then padded.take 4 else padded

/-- Python `"ABCD"[i]`, defined as the empty string past the end; an index
of four or more would raise `IndexError` in the source but is unreachable
from `_format_mcq`, whose options list always has exactly four entries. -/
def abcdAt (i : Nat) : String := String.mk (("ABCD".data.drop i).take 1)

/-- The `enumerate(options)` loop of `_pick_answer_letter`. -/
def pickIndexLoop : List String → String → Nat → String
  | [], _, _ => "A"
  | o :: os, an, i => if canon o = an then abcdAt i else pickIndexLoop os an (i + 1)

/-- Embedding of `_pick_answer_letter`: a stripped answer that is already
a letter A to D (any case) is uppercased; otherwise the first option whose
canonical form matches the canonical answer gives the letter by position;
otherwise `A`. -/
def pick_answer_letter (options : List String) (answer : Option String) : String :=
  match answer with
  | some a =>
    if pyUpper (pyStrip a) ∈ (["A", "B", "C", "D"] : List String) then pyUpper (pyStrip a)
    else pickIndexLoop options (canon a) 0
  | none => "A"

/-- Embedding of `_compose_explanation`. -/
def compose_explanation (expl ref : Option String) : String :=
  let parts :=
    (match expl with
     | some e => if pyTruthyStr e && pyTruthyStr (pyStrip e) then [cleanText e] else []
     | none => []) ++
    (match ref with
     | some r => if pyTruthyStr r && pyTruthyStr (pyStrip r) then ["(Ref: " ++ pyStrip r ++ ")"] else []
     | none => [])
  pyStrip (String.intercalate " " parts)

/-- Embedding of `_format_mcq`. -/
def format_mcq (qnum : Nat) (it : Item) : List String :=
  let text := cleanText (pyOrS it.text "Untitled question")
  let options := ensure_four_options it.options
  let answer_letter := pick_answer_letter options it.answer
  let explanation := compose_explanation it.explanation it.reference
  let out := ["**" ++ toString qnum ++ ". " ++ text ++ "**",
    "a) " ++ options.getD 0 "", "b) " ++ options.getD 1 "",
    "c) " ++ options.getD 2 "", "d) " ++ options.getD 3 "",
    "**Answer:** " ++ answer_letter]
  if pyTruthyStr explanation then out ++ ["**Explanation:** " ++ explanation] else out

/-- Embedding of `_format_short_answer`. -/
def format_short_answer (qnum : Nat) (it : Item) : List String :=
  let text := cleanText (pyOrS it.text "Untitled question")
  let answer := cleanText (pyOrS it.answer "")
  let explanation := compose_explanation it.explanation it.reference
  let out := ["**" ++ toString qnum ++ ". " ++ text ++ "**", "**Answer:** " ++ answer]
  if pyTruthyStr explanation then out ++ ["**Explanation:** " ++ explanation] else out

/-- Embedding of `_format_true_false`. -/
def format_true_false (qnum : Nat) (it : Item) : List String :=
  let text := cleanText (pyOrS it.text "Untitled statement")
  let answer := pyStrip (pyOrS it.answer "")
  let answer_norm :=
    if pyLower answer ∈ (["true", "t", "1", "yes"] : List String) then "True" else "False"
  let explanation := compose_explanation it.explanation it.reference
  let out := ["**" ++ toString qnum ++ ". T/F: " ++ text ++ "**", "**Answer:** " ++ answer_norm]
  if pyTruthyStr explanation then out ++ ["**Explanation:** " ++ explanation] else out

/-- Embedding of `_format_essay`. -/
def format_essay (qnum : Nat) (it : Item) : List String :=
  let text := cleanText (pyOrS it.text "Essay prompt")
  let explanation := compose_explanation it.explanation it.reference
  let out := ["**" ++ toString qnum ++ ". " ++ text ++ "**", "**Answer:**"]
  if pyTruthyStr explanation then out ++ ["**Explanation:** " ++ explanation] else out

/-- The lowercased stripped kind used by the partition of
`render_canvas_markdown` line 33. -/
def kindStr (it : Item) : String := pyStrip (pyLower (pyOrS it.kind ""))

/-- The kind partition of `render_canvas_markdown` (lines 31 to 41):
four buckets in input order, recognised through the alias sets; anything
else lands in no bucket. -/
def partitionQuestions : List Item → List Item × List Item × List Item × List Item
  | [] => ([], [], [], [])
  | it :: rest =>
    let (m, s, t, e) := partitionQuestions rest
    let kind := kindStr it
    if kind ∈ (["mcq", "multiple_choice", "multiple_choice_question"] : List String) then
      (it :: m, s, t, e)
    else if kind ∈ (["short_answer", "short-answer", "shortanswer"] : List String) then
      (m, it :: s, t, e)
    else if kind ∈ (["true_false", "truefalse", "tf"] : List String) then (m, s, it :: t, e)
    else if kind ∈ (["essay", "long_answer", "longanswer"] : List String) then (m, s, t, it :: e)
    else (m, s, t, e)

/-- Python `points.get(key, default)` on the per-kind point mapping. -/
def pointsGet (points : List (String × Int)) (k : String) (d : Int) : Int :=
  (points.foldl (fun acc p => if p.1 = k then some p.2 else acc) none).getD d

/-- One bucket loop of `render_canvas_markdown`: format each item at the
running number, follow it with a blank line, and return the next number. -/
def renderBucket (fmt : Nat → Item → List String) (qnum : Nat) :
    List Item → List String × Nat
  | [] => ([], qnum)
  | it :: rest =>
    let here := fmt qnum it ++ [""]
    let (restLines, qn) := renderBucket fmt (qnum + 1) rest
    (here ++ restLines, qn)

/-- A bucket section: header plus items when the bucket is non-empty. -/
def bucketSection (header : String) (fmt : Nat → Item → List String) (qnum : Nat)
    (bucket : List Item) : List String × Nat :=
  if bucket.isEmpty then ([], qnum)
  else
    let (ls, qn) := renderBucket fmt qnum bucket
    (header :: ls, qn)

/-- Embedding of `render_canvas_markdown` in
`server/tools/canvas_export.py`: partition by kind, emit the four
sections in fixed order with a shared running question number, join with
newlines, right-strip, append one newline, and prepend the prompt comment
when the prompt is non-blank. -/
def render_canvas_markdown (prompt : String) (items : List Item)
    (points : List (String × Int)) : String :=
  let (mcqs, sa, tf, essay) := partitionQuestions items
  let s1 := bucketSection ("### Multiple Choice Questions (MCQ) - " ++
    toString (pointsGet points "mcq" 3) ++ " points each\n") format_mcq 1 mcqs
  let s2 := bucketSection ("### Short Answer Questions - " ++
    toString (pointsGet points "short_answer" 4) ++ " points each\n") format_short_answer s1.2 sa
  let s3 := bucketSection ("### True/False Questions (T/F) - " ++
    toString (pointsGet points "true_false" 2) ++ " points each\n") format_true_false s2.2 tf
  let s4 := bucketSection ("### Essay Questions - " ++
    toString (pointsGet points "essay" 5) ++ " points each\n") format_essay s3.2 essay
  let lines := s1.1 ++ s2.1 ++ s3.1 ++ s4.1
  let body := String.mk (stripRightL ((String.intercalate "\n" lines).data)) ++ "\n"
  let preface := if pyTruthyStr (pyStrip prompt) then
    "<!-- Prompt: " ++ pyStrip prompt ++ " -->\n" else ""
  preface ++ body

/-- Index of the first element satisfying `p` (specification-side reading
of "the matching option's letter, A = index 0 ..."). -/
def specFindIdx (p : String → Prop) [DecidablePred p] : List String → Option Nat
  | [] => none
  | o :: os => if p o then some 0 else (specFindIdx p os).map (fun j => j + 1)

theorem specFindIdx_lt_length {p : String → Prop} [DecidablePred p] :
    ∀ {l : List String} {j : Nat}, specFindIdx p l = some j → j < l.length := by
  intro l
  induction l with
  | nil => intro j h; simp [specFindIdx] at h
  | cons o os ih =>
    intro j h
    unfold specFindIdx at h
    split at h
    · injection h with h2
      subst h2
      simp
    · cases hf : specFindIdx p os with
      | none => rw [hf] at h; simp at h
      | some j2 =>
        rw [hf] at h
        simp at h
        subst h
        have := ih hf
        simp
        omega

theorem pickIndexLoop_spec (an : String) :
    ∀ (os : List String) (i : Nat),
      pickIndexLoop os an i =
        match specFindIdx (fun o => canon o = an) os with
        | some j => abcdAt (i + j)
        | none => "A" := by
  intro os
  induction os with
  | nil => intro i; rfl
  | cons o os ih =>
    intro i
    unfold pickIndexLoop specFindIdx
    by_cases hc : canon o = an
    · rw [if_pos hc, if_pos hc]
      dsimp only
      rw [Nat.add_zero]
    · rw [if_neg hc, if_neg hc, ih (i + 1)]
      cases hf : specFindIdx (fun o => canon o = an) os with
      | none => rfl
      | some j =>
        simp only [Option.map_some']
        have : i + 1 + j = i + (j + 1) := by omega
        rw [this]

theorem ensure_four_length (raw : Option (List String)) :
    (ensure_four_options raw).length = 4 := by
  unfold ensure_four_options
  dsimp only
  split
  · next h =>
    rw [List.length_take]
    omega
  · next h =>
    rw [List.length_append, List.length_replicate] at *
    omega

theorem abcdAt_lt {j : Nat} (h : j < 4) :
    abcdAt j = (["A", "B", "C", "D"] : List String).getD j "A" := by
  interval_cases j <;> rfl

/-- C6: on the record with options Paris, London, Rome and answer London
the renderer pads the options to exactly four with the placeholder glyph
and resolves the answer letter to B; and in general the letter is the
uppercased stripped answer when that is already one of A to D, else the
letter (A = index 0 ... D = index 3) of the first option whose canonical
form matches the canonical answer, else A. -/
theorem mcq_answer_letter_and_padding :
    (ensure_four_options (some ["Paris", "London", "Rome"]) =
        ["Paris", "London", "Rome", placeholderGlyph]
      ∧ (ensure_four_options (some ["Paris", "London", "Rome"])).length = 4
      ∧ pick_answer_letter (ensure_four_options (some ["Paris", "London", "Rome"]))
          (some "London") = "B")
    ∧ ∀ (raw : Option (List String)) (ans : Option String),
        pick_answer_letter (ensure_four_options raw) ans =
          match ans with
          | none => "A"
          | some a =>
            if pyUpper (pyStrip a) ∈ (["A", "B", "C", "D"] : List String) then
              pyUpper (pyStrip a)
            else
              match specFindIdx (fun o => canon o = canon a) (ensure_four_options raw) with
              | some j => (["A", "B", "C", "D"] : List String).getD j "A"
              | none => "A" := by
  constructor
  · exact ⟨by decide, by decide, by decide⟩
  · intro raw ans
    cases ans with
    | none => rfl
    | some a =>
      unfold pick_answer_letter
      dsimp only
      by_cases hu : pyUpper (pyStrip a) ∈ (["A", "B", "C", "D"] : List String)
      · rw [if_pos hu, if_pos hu]
      · rw [if_neg hu, if_neg hu, pickIndexLoop_spec (canon a) (ensure_four_options raw) 0]
        cases hf : specFindIdx (fun o => canon o = canon a) (ensure_four_options raw) with
        | none => rfl
        | some j =>
          have hj : j < 4 := by
            have := specFindIdx_lt_length hf
            rwa [ensure_four_length raw] at this
          dsimp only
          rw [Nat.zero_add, abcdAt_lt hj]

/-- All kind strings the renderer's partition recognises (the union of
the four alias tuples in `render_canvas_markdown` lines 34 to 41). -/
def recognizedKinds : List String :=
  ["mcq", "multiple_choice", "multiple_choice_question",
   "short_answer", "short-answer", "shortanswer",
   "true_false", "truefalse", "tf",
   "essay", "long_answer", "longanswer"]

/-- A question whose kind is the alias `tf`: not one of the four canonical
kinds, yet rendered. -/
def tfAliasItem : Item :=
  { kind := some "tf", text := some "The sky is blue", options := none,
    answer := some "true", explanation := none, reference := none }

/-- C8 counterexample: the claim says every kind outside the four
canonical kinds mcq, short_answer, true_false, essay is dropped, but the
partition also recognises alias kinds: an item with kind `tf` lands in
the true/false bucket and changes the rendered output. -/
theorem alias_kind_not_dropped_cex :
    kindStr tfAliasItem ∉ (["mcq", "short_answer", "true_false", "essay"] : List String)
      ∧ partitionQuestions [tfAliasItem] = ([], [], [tfAliasItem], [])
      ∧ render_canvas_markdown "" [tfAliasItem] [] ≠ render_canvas_markdown "" [] [] := by
  refine ⟨by decide, by decide, by decide⟩

/-- C8 amended: every question whose lowercased stripped kind is outside
the recognised alias sets (mcq/multiple_choice/multiple_choice_question,
short_answer/short-answer/shortanswer, true_false/truefalse/tf,
essay/long_answer/longanswer) lands in no bucket and leaves the rendered
output unchanged; the renderer is total, so unknown kinds never crash it. -/
theorem unrecognized_kind_dropped_amended :
    ∀ (prompt : String) (points : List (String × Int)) (items : List Item) (it : Item),
      kindStr it ∉ recognizedKinds →
      partitionQuestions (it :: items) = partitionQuestions items
        ∧ render_canvas_markdown prompt (it :: items) points =
            render_canvas_markdown prompt items points := by
  intro prompt points items it h
  simp only [recognizedKinds, List.mem_cons, not_or] at h
  obtain ⟨e1, e2, e3, e4, e5, e6, e7, e8, e9, e10, e11, e12, -⟩ := h
  have hp : partitionQuestions (it :: items) = partitionQuestions items := by
    simp only [partitionQuestions, List.mem_cons, List.mem_singleton]
    simp [e1, e2, e3, e4, e5, e6, e7, e8, e9, e10, e11, e12]
  refine ⟨hp, ?_⟩
  unfold render_canvas_markdown
  rw [hp]

/-- A record with an unrecognised kind. -/
def weirdItem : Item :=
  { kind := some "matching", text := some "Match the columns", options := none,
    answer := none, explanation := none, reference := none }

theorem unrecognized_kind_dropped_amended_witness :
    partitionQuestions [weirdItem] = partitionQuestions ([] : List Item)
      ∧ render_canvas_markdown "quiz" [weirdItem] [] =
          render_canvas_markdown "quiz" ([] : List Item) [] :=
  unrecognized_kind_dropped_amended "quiz" [] [] weirdItem (by decide)

/-- C9: the renderer is a pure function of its three inputs — rendering
the same question list, prompt label and points mapping twice produces
byte-identical markdown. The embedding itself establishes that the
renderer's output depends on nothing but these inputs. -/
theorem render_markdown_deterministic :
    ∀ (prompt : String) (items : List Item) (points : List (String × Int)),
      render_canvas_markdown prompt items points = render_canvas_markdown prompt items points :=
  fun _ _ _ => rfl

/-- Modelled from the spec: `generate_insertion_preview` is imported from
`webapp.backend.services` by `webapp/backend/main.py` (line 54) and used
by the insertion-preview endpoint (lines 294 to 311), but the function
itself is absent from the sources. Section 4.4 (InsertionPlanner)
defines it: clamp the requested zero-based insert index to
`[0, len(existing)]` (clamping, never an error), splice the new
questions at the clamped index without deduplication, and return the
preview list, the merged list and the clamped index, as a pure
computation that never touches the store. -/
def generate_insertion_preview {α : Type} (existing newQuestions : List α)
    (insert_index : Int) : List α × List α × Nat :=
  let clamped : Nat := (max 0 (min insert_index (existing.length : Int))).toNat
  (newQuestions, existing.take clamped ++ newQuestions ++ existing.drop clamped, clamped)

/-- C7: with two existing questions, one new question and requested index
5, the clamped index is 2 and the merged list appends the new question at
the end; in general the returned index is clamped to at most the length
of the existing list and the merged list is the splice at that index, for
any (also negative) requested index. -/
theorem insertion_preview_clamps :
    (generate_insertion_preview ["q1", "q2"] ["q3"] 5 = (["q3"], ["q1", "q2", "q3"], 2))
    ∧ ∀ (α : Type) (existing newQs : List α) (i : Int),
        (generate_insertion_preview existing newQs i).1 = newQs
        ∧ (generate_insertion_preview existing newQs i).2.2 ≤ existing.length
        ∧ (generate_insertion_preview existing newQs i).2.1 =
            existing.take (generate_insertion_preview existing newQs i).2.2 ++ newQs ++
              existing.drop (generate_insertion_preview existing newQs i).2.2 := by
  constructor
  · decide
  · intro α existing newQs i
    refine ⟨rfl, ?_, rfl⟩
    show (max 0 (min i (existing.length : Int))).toNat ≤ existing.length
    omega

/-- A stored question row of `server/question_sets.py` — the tuple
returned by `_normalize_question`. The `options_json` column holds
`json.dumps` of the options list; since that serialization is injective
on string lists it is abstracted as the list itself. -/
structure NormQuestion where
  kind : String
  text : String
  options_json : Option (List String)
  answer : Option String
  explanation : Option String
  reference : Option String
deriving DecidableEq

/-- Embedding of `_normalize_question` (`server/question_sets.py` lines
127 to 142): empty stripped text drops the record, kind defaults to
`short_answer`, options serialize only for non-empty lists, trailing
fields use the strip-or-None idiom. -/
def normalize_question (it : Item) : Option NormQuestion :=
  let kind0 := pyLower (pyStrip (pyOrS it.kind ""))
  let kind := if pyTruthyStr kind0 then kind0 else "short_answer"
  let text := pyStrip (pyOrS it.text "")
  if !pyTruthyStr text then none
  else
    some { kind := kind, text := text,
           options_json :=
             match it.options with
             | some os => if os.length > 0 then some os else none
             | none => none,
           answer := strOrNone (pyStrip (pyOrS it.answer "")),
           explanation := strOrNone (pyStrip (pyOrS it.explanation "")),
           reference := strOrNone (pyStrip (pyOrS it.reference "")) }

/-- Embedding of `create_question_set` (`server/question_sets.py` lines 53
to 72): the guard raises on an empty sequence (the `isinstance` half of
the guard is vacuous for a list input), then the set is stored with the
rows `_replace_questions` keeps — `_normalize_question` of each item,
`None` results skipped. The database round trip is modelled as the
stored prompt and row list. -/
def create_question_set (prompt : String) (items : List Item) :
    Except String (String × List NormQuestion) :=
  if items.length = 0 then .error "No questions supplied."
  else .ok (prompt, items.filterMap normalize_question)

/-- Embedding of `update_question_set` (`server/question_sets.py` lines 75
to 101): the target set must exist (modelled by the `found` flag), the
same empty guard applies, and the question rows are fully replaced by the
normalized items. -/
def update_question_set (found : Bool) (set_id : Nat) (prompt : Option String)
    (items : List Item) : Except String (List NormQuestion) :=
  if !found then .error ("Question set " ++ toString set_id ++ " not found.")
  else if items.length = 0 then .error "No questions supplied."
  else .ok (items.filterMap normalize_question)

/-- C10: the "No questions supplied." guard of create/update fires exactly
on an empty question sequence; a non-empty sequence whose every entry has
empty or whitespace-only text passes the guard, every entry is silently
dropped by `_normalize_question`, and the set is created or updated with
zero stored questions. -/
theorem question_set_blank_questions :
    ∀ (prompt : String) (items : List Item),
      ((create_question_set prompt items = .error "No questions supplied.") ↔ items = [])
      ∧ ((update_question_set true 1 none items = .error "No questions supplied.") ↔ items = [])
      ∧ (items ≠ [] → (∀ it ∈ items, pyStrip (pyOrS it.text "") = "") →
          create_question_set prompt items = .ok (prompt, [])
            ∧ update_question_set true 1 none items = .ok []) := by
  intro prompt items
  have hfm : (∀ it ∈ items, pyStrip (pyOrS it.text "") = "") →
      items.filterMap normalize_question = [] := by
    intro h
    rw [List.filterMap_eq_nil_iff]
    intro it hit
    unfold normalize_question
    rw [h it hit]
    rfl
  refine ⟨?_, ?_, ?_⟩
  · cases items with
    | nil => simp [create_question_set]
    | cons a l => simp [create_question_set]
  · cases items with
    | nil => simp [update_question_set]
    | cons a l => simp [update_question_set]
  · intro hne hblank
    have hlen : items.length ≠ 0 := by
      cases items with
      | nil => exact absurd rfl hne
      | cons a l => simp
    constructor
    · unfold create_question_set
      rw [if_neg hlen, hfm hblank]
    · unfold update_question_set
      rw [if_neg (by simp), if_neg hlen, hfm hblank]

/-- A single question whose text is whitespace-only. -/
def blankItems : List Item :=
  [{ kind := none, text := some "   ", options := none, answer := none,
     explanation := none, reference := none }]

theorem question_set_blank_questions_witness :
    create_question_set "Quiz one" blankItems = .ok ("Quiz one", [])
      ∧ update_question_set true 1 none blankItems = .ok [] :=
  (question_set_blank_questions "Quiz one" blankItems).2.2 (by decide) (by decide)
